import Mathlib

/-!
Verification of the generic-object runtime of rsyslog (src/obj.c): class
registry, capability-table dispatch and the streaming text
serialization/deserialization protocol with its recovery scanner.

The byte stream is modelled as a `List Char`; every stream primitive of the
collaborator (strmReadChar / strmUnreadChar / strmWriteChar / strmWrite /
strmWriteLong) becomes an explicit function on that list.  Every parsing
routine of obj.c returns a `ParseOut`, carrying the parsed value or the
rsRetVal error code together with the exact stream position reached, so
that the recovery scanner's interplay with failed parses is preserved.

C `assert` failures and the literal `abort()` call at obj.c line 725 both
terminate the process; the model marks either with the distinguished
outcome `RsRet.ABORTED` (not an rsRetVal the C code could ever return).
-/

/-- Return codes of rsyslog (rsRetVal) used by obj.c, plus `ABORTED`, the
marker for process termination by a failed `assert` or a literal `abort()`
call.  Only the codes obj.c mentions are modelled. -/
inductive RsRet where
  | OK
  | NOT_IMPLEMENTED
  | OUT_OF_MEMORY
  | INVALID_HEADER
  | INVALID_HEADER_RECTYPE
  | INVALID_HEADER_VERS
  | INVALID_OID
  | INVALID_NUMBER
  | INVALID_DELIMITER
  | INVALID_PROPFRAME
  | INVALID_TRAILER
  | NO_PROPLINE
  | EOF
  | PROVIDED_BUFFER_TOO_SMALL
  | ABORTED
deriving DecidableEq, Repr

/-- Result of running one deserializer routine: the value produced or the
rsRetVal failure code, in both cases with the stream contents that remain
after the characters the routine consumed (and possibly pushed back). -/
inductive ParseOut (α : Type) where
  | ok (a : α) (rest : List Char)
  | err (code : RsRet) (rest : List Char)
deriving DecidableEq, Repr

/-- Stream contents left behind by a parse, whether it succeeded or not. -/
def ParseOut.rem {α : Type} : ParseOut α → List Char
  | .ok _ s => s
  | .err _ s => s

/-- Sequencing of two parses: on error the error propagates together with
the stream position, exactly as the CHKiRet macro does in obj.c. -/
def pbind {α β : Type} (m : ParseOut α) (f : α → List Char → ParseOut β) : ParseOut β :=
  match m with
  | .ok a s => f a s
  | .err e s => .err e s

/-- Modelled from the spec: the stream collaborator's `readChar` (stream.c is
not in src/) returns the next character, or EndOfStream when exhausted. -/
def rdChar : List Char → ParseOut Char
  | [] => .err .EOF []
  | c :: s => .ok c s

/-- The `NEXTC; if(c != want) ABORT_FINALIZE(code)` idiom of obj.c. -/
def expectChar (want : Char) (code : RsRet) (s : List Char) : ParseOut Unit :=
  pbind (rdChar s) (fun c s1 => if c = want then .ok () s1 else .err code s1)

/- cookies for serialized lines (obj.c lines 84-87) -/

def COOKIE_OBJLINE : Char := '<'
def COOKIE_PROPLINE : Char := '+'
def COOKIE_ENDLINE : Char := '>'
def COOKIE_BLANKLINE : Char := '.'

/-- Modelled from the spec: obj.h (not in src/) defines the objID_t range;
the spec calls its bound MAX_CLASSES and only requires it to be a small
bounded integer.  The value 9 is taken; no claim depends on the exact value. -/
def OBJ_NUM_IDS : Nat := 9

/-! ## Decimal rendering (strmWriteLong / srUtilItoA collaborators) -/

/-- One decimal digit as its ASCII character. -/
def digitChar (d : Nat) : Char := Char.ofNat (48 + d)

/-- Fuel-indexed most-significant-first decimal digits of a natural. -/
def natToDecAux : Nat → Nat → List Char
  | 0, _ => []
  | fuel + 1, n => if n = 0 then [] else natToDecAux fuel (n / 10) ++ [digitChar (n % 10)]

/-- Modelled from the spec: decimal ASCII rendering of a nonnegative value,
as the stream collaborator's `writeInteger` produces it. -/
def natToDec (n : Nat) : List Char := if n = 0 then ['0'] else natToDecAux n n

/-- Modelled from the spec: decimal ASCII rendering of an integer with a
leading `-` for negatives, as srUtilItoA (srUtils.c, not in src/) and
strmWriteLong produce it. -/
def intToDec (i : Int) : List Char :=
  if i < 0 then '-' :: natToDec i.natAbs else natToDec i.natAbs

/-! ## Number deserialization (objDeserializeNumber, obj.c lines 390-424) -/

/-- The digit-accumulation loop `while(isdigit(c)) { i = i*10 + c - '0'; NEXTC; }`
of objDeserializeNumber: takes the current character and the stream, returns
the accumulated value and the first non-digit character read. -/
def scanNumber : Int → Char → List Char → ParseOut (Int × Char)
  | i, c, [] => if c.isDigit then .err .EOF [] else .ok (i, c) []
  | i, c, c2 :: s2 =>
      if c.isDigit then scanNumber (i * 10 + ((c.toNat : Int) - 48)) c2 s2
      else .ok (i, c) (c2 :: s2)

/-- Body of objDeserializeNumber after the optional sign: first character
must be a digit, digits are accumulated, and the terminator must be `:`. -/
def numBody (bIsNegative : Bool) (c : Char) (s : List Char) : ParseOut Int :=
  if c.isDigit then
    pbind (scanNumber 0 c s) (fun r s1 =>
      if r.2 = ':' then .ok (if bIsNegative then -r.1 else r.1) s1
      else .err .INVALID_DELIMITER s1)
  else .err .INVALID_NUMBER s

/-- objDeserializeNumber: optional `-`, one-or-more digits, `:` terminator. -/
def objDeserializeNumber (s : List Char) : ParseOut Int :=
  match s with
  | [] => .err .EOF []
  | c :: s1 =>
    if c = '-' then
      match s1 with
      | [] => .err .EOF []
      | c2 :: s2 => numBody true c2 s2
    else numBody false c s1

/-! ## Facts about digits and decimal rendering -/

theorem digitChar_isDigit {d : Nat} (h : d < 10) : (digitChar d).isDigit = true := by
  interval_cases d <;> decide

theorem digitChar_toNat {d : Nat} (h : d < 10) : (digitChar d).toNat = 48 + d := by
  interval_cases d <;> decide

theorem digitChar_ne_colon {d : Nat} (h : d < 10) : digitChar d ≠ ':' := by
  interval_cases d <;> decide

theorem digitChar_ne_dash {d : Nat} (h : d < 10) : digitChar d ≠ '-' := by
  interval_cases d <;> decide

/-- The value a most-significant-first digit list accumulates to, starting
from accumulator `i` — the loop invariant of scanNumber. -/
def pushDigits (i : Int) (ds : List Nat) : Int :=
  ds.foldl (fun a d => a * 10 + (d : Int)) i

theorem pushDigits_append (i : Int) (xs ys : List Nat) :
    pushDigits i (xs ++ ys) = pushDigits (pushDigits i xs) ys := by
  simp [pushDigits, List.foldl_append]

theorem pushDigits_cons (i : Int) (d : Nat) (L : List Nat) :
    pushDigits i (d :: L) = pushDigits (i * 10 + (d : Int)) L := by
  simp [pushDigits]

theorem pushDigits_single (i : Int) (d : Nat) : pushDigits i [d] = i * 10 + (d : Int) := by
  simp [pushDigits]

theorem pushDigits_reverse (M : List Nat) (i : Int) :
    pushDigits i M.reverse = i * 10 ^ M.length + ((Nat.ofDigits 10 M : Nat) : Int) := by
  induction M generalizing i with
  | nil => simp [pushDigits]
  | cons d M ih =>
    rw [List.reverse_cons, pushDigits_append, ih, pushDigits_single, Nat.ofDigits_cons,
      List.length_cons]
    push_cast
    ring

theorem natToDecAux_eq_digits (fuel n : Nat) (h : n ≤ fuel) :
    natToDecAux fuel n = (Nat.digits 10 n).reverse.map digitChar := by
  induction fuel generalizing n with
  | zero =>
    interval_cases n
    simp [natToDecAux]
  | succ fuel ih =>
    by_cases h0 : n = 0
    · simp [natToDecAux, h0]
    · have hdiv : n / 10 ≤ fuel := by
        have := Nat.div_lt_self (Nat.pos_of_ne_zero h0) (by norm_num : 1 < 10)
        omega
      rw [natToDecAux, if_neg h0, ih _ hdiv,
        Nat.digits_def' (by norm_num : 1 < 10) (Nat.pos_of_ne_zero h0)]
      simp

theorem natToDec_eq_digits (n : Nat) :
    natToDec n = (if n = 0 then [0] else (Nat.digits 10 n).reverse).map digitChar := by
  by_cases h0 : n = 0
  · subst h0; decide
  · simp [natToDec, h0, natToDecAux_eq_digits n n le_rfl]

/-- The decimal digits (as naturals, most significant first) that natToDec
renders: a nonempty list of digits below 10 accumulating to `n`. -/
theorem natToDec_spec (n : Nat) :
    ∃ d0 L, natToDec n = digitChar d0 :: L.map digitChar ∧ d0 < 10 ∧
      (∀ d ∈ L, d < 10) ∧ pushDigits 0 (d0 :: L) = n := by
  by_cases h0 : n = 0
  · exact ⟨0, [], by subst h0; decide, by norm_num, by simp, by subst h0; decide⟩
  · have hne : Nat.digits 10 n ≠ [] := Nat.digits_ne_nil_iff_ne_zero.mpr h0
    obtain ⟨d0, L, hL⟩ : ∃ d0 L, (Nat.digits 10 n).reverse = d0 :: L := by
      cases hrev : (Nat.digits 10 n).reverse with
      | nil => exact absurd (by simpa using congrArg List.reverse hrev) hne
      | cons a as => exact ⟨a, as, rfl⟩
    have hlt : ∀ d ∈ (Nat.digits 10 n).reverse, d < 10 := by
      intro d hd
      exact Nat.digits_lt_base (by norm_num) (List.mem_reverse.mp hd)
    refine ⟨d0, L, ?_, ?_, ?_, ?_⟩
    · rw [natToDec_eq_digits, if_neg h0, hL]; simp
    · exact hlt d0 (hL ▸ List.mem_cons_self d0 L)
    · intro d hd; exact hlt d (hL ▸ List.mem_cons_of_mem d0 hd)
    · have := pushDigits_reverse (Nat.digits 10 n) 0
      rw [hL] at this
      simpa [Nat.ofDigits_digits] using this

theorem scanNumber_stop (i : Int) (c : Char) (hc : c.isDigit = false) (s : List Char) :
    scanNumber i c s = .ok (i, c) s := by
  cases s <;> simp [scanNumber, hc]

theorem scanNumber_step (i : Int) (c : Char) (hc : c.isDigit = true) (c2 : Char)
    (s2 : List Char) :
    scanNumber i c (c2 :: s2) = scanNumber (i * 10 + ((c.toNat : Int) - 48)) c2 s2 := by
  simp [scanNumber, hc]

/-- Running the digit loop over rendered digits followed by a non-digit
terminator accumulates exactly `pushDigits`. -/
theorem scanNumber_digits (L : List Nat) (hL : ∀ d ∈ L, d < 10) :
    ∀ (i : Int) (d0 : Nat), d0 < 10 → ∀ (c : Char), c.isDigit = false → ∀ (rest : List Char),
    scanNumber i (digitChar d0) (L.map digitChar ++ c :: rest) =
      .ok (pushDigits i (d0 :: L), c) rest := by
  induction L with
  | nil =>
    intro i d0 hd0 c hc rest
    simp only [List.map_nil, List.nil_append]
    rw [scanNumber_step _ _ (digitChar_isDigit hd0), scanNumber_stop _ _ hc]
    have hval : i * 10 + (((digitChar d0).toNat : Int) - 48) = pushDigits i [d0] := by
      rw [digitChar_toNat hd0, pushDigits_single]
      push_cast
      ring
    rw [hval]
  | cons d1 L ih =>
    intro i d0 hd0 c hc rest
    have hd1 : d1 < 10 := hL d1 (List.mem_cons_self d1 L)
    have hL' : ∀ d ∈ L, d < 10 := fun d hd => hL d (List.mem_cons_of_mem d1 hd)
    simp only [List.map_cons, List.cons_append]
    rw [scanNumber_step _ _ (digitChar_isDigit hd0), ih hL' _ d1 hd1 c hc rest]
    have hval : i * 10 + (((digitChar d0).toNat : Int) - 48) = i * 10 + (d0 : Int) := by
      rw [digitChar_toNat hd0]
      push_cast
      ring
    rw [hval, pushDigits_cons i d0 (d1 :: L)]

theorem colon_not_digit : (':' : Char).isDigit = false := by decide

/-- Parsing the rendered decimal of any integer followed by a `:` terminator
recovers the integer and consumes exactly through the `:`. -/
theorem objDeserializeNumber_intToDec (i : Int) (rest : List Char) :
    objDeserializeNumber (intToDec i ++ ':' :: rest) = .ok i rest := by
  obtain ⟨d0, L, hrep, hd0, hL, hpush⟩ := natToDec_spec i.natAbs
  by_cases hneg : i < 0
  · have hdec : intToDec i = '-' :: natToDec i.natAbs := by simp [intToDec, hneg]
    rw [hdec, hrep]
    simp only [List.cons_append, objDeserializeNumber, if_pos rfl]
    rw [numBody, if_pos (digitChar_isDigit hd0),
      scanNumber_digits L hL 0 d0 hd0 ':' colon_not_digit rest]
    simp only [pbind, if_true]
    rw [hpush]
    congr 1
    omega
  · have hdec : intToDec i = natToDec i.natAbs := by simp [intToDec, hneg]
    rw [hdec, hrep]
    simp only [List.cons_append, objDeserializeNumber]
    rw [if_neg (by simpa using digitChar_ne_dash hd0), numBody,
      if_pos (digitChar_isDigit hd0),
      scanNumber_digits L hL 0 d0 hd0 ':' colon_not_digit rest]
    simp only [pbind, if_true, Bool.false_eq_true, if_false]
    rw [hpush]
    congr 1
    omega

/-- Rendering a natural as an integer takes the nonnegative branch. -/
theorem intToDec_natCast (n : Nat) : intToDec (n : Int) = natToDec n := by
  simp [intToDec]

/-! ## Property data model -/

/-- Modelled from the spec: the variant value types of var.h (not in src/):
string, integer (number), composite timestamp, or none.  The numeric wire
encoding 0/1/2/3 is fixed here; obj.c only needs serializer and
deserializer to agree on it. -/
def VARTYPE_NONE : Int := 0
/-- Wire tag of string-typed variant values (see VARTYPE_NONE). -/
def VARTYPE_STR : Int := 1
/-- Wire tag of number-typed variant values (see VARTYPE_NONE). -/
def VARTYPE_NUMBER : Int := 2
/-- Wire tag of timestamp-typed variant values (see VARTYPE_NONE). -/
def VARTYPE_SYSLOGTIME : Int := 3

/-- The syslogTime_t structure (syslogd-types.h, not in src/): the 12
components obj.c serializes and deserializes.  Numeric fields are
modelled as unbounded integers; OffsetMode is the single character
written by the %c conversion. -/
structure SyslogTime where
  timeType : Int
  year : Int
  month : Int
  day : Int
  hour : Int
  minute : Int
  second : Int
  secfrac : Int
  secfracPrecision : Int
  OffsetMode : Char
  OffsetHour : Int
  OffsetMinute : Int
deriving DecidableEq, Repr

/-- The value carried by a var_t: tag-matching payload, or unset when the
deserializer's type dispatch hit the default branch and wrote nothing. -/
inductive VarVal where
  | unset
  | vstr (s : List Char)
  | vnum (n : Int)
  | vtime (t : SyslogTime)
deriving DecidableEq, Repr

/-- The var_t object (var.h, not in src/) as obj.c uses it: one
name/type/value triple read from or written to the wire. -/
structure var_t where
  name : List Char
  varType : Int
  val : VarVal
deriving DecidableEq, Repr

/-! ## String, timestamp, header, property, trailer deserialization -/

/-- The `for(i = 0 ; i < iLen ; ++i)` character-collection loop of
objDeserializeStr, reading exactly n characters. -/
def readNChars : Nat → List Char → List Char → ParseOut (List Char)
  | 0, acc, s => .ok acc s
  | _ + 1, _, [] => .err .EOF []
  | n + 1, acc, c :: s => readNChars n (acc ++ [c]) s

/-- objDeserializeStr (obj.c lines 428-457): `assert(iLen > 0)` (modelled as
ABORTED), then reads iLen characters followed by a mandatory `:`. -/
def objDeserializeStr (iLen : Int) (s : List Char) : ParseOut (List Char) :=
  if iLen ≤ 0 then .err .ABORTED s
  else
    pbind (readNChars iLen.toNat [] s) (fun v s1 =>
      pbind (rdChar s1) (fun c s2 =>
        if c = ':' then .ok v s2 else .err .INVALID_DELIMITER s2))

/-- objDeserializeSyslogTime (obj.c lines 464-489): nine numbers, the
one-character offset mode, a mandatory `:`, then two more numbers. -/
def objDeserializeSyslogTime (s : List Char) : ParseOut SyslogTime :=
  pbind (objDeserializeNumber s) (fun timeType s =>
  pbind (objDeserializeNumber s) (fun year s =>
  pbind (objDeserializeNumber s) (fun month s =>
  pbind (objDeserializeNumber s) (fun day s =>
  pbind (objDeserializeNumber s) (fun hour s =>
  pbind (objDeserializeNumber s) (fun minute s =>
  pbind (objDeserializeNumber s) (fun second s =>
  pbind (objDeserializeNumber s) (fun secfrac s =>
  pbind (objDeserializeNumber s) (fun secfracPrecision s =>
  pbind (rdChar s) (fun om s =>
  pbind (rdChar s) (fun c s =>
  if c = ':' then
    pbind (objDeserializeNumber s) (fun oh s =>
    pbind (objDeserializeNumber s) (fun omin s =>
    .ok ⟨timeType, year, month, day, hour, minute, second, secfrac,
         secfracPrecision, om, oh, omin⟩ s))
  else .err .INVALID_DELIMITER s)))))))))))

/-- The `NEXTC; while(c != '\n') NEXTC;` skip loop of objDeserializeHeader:
discards everything up to and including the next newline. -/
def skipToNL : List Char → ParseOut Unit
  | [] => .err .EOF []
  | c :: s => if c = '\n' then .ok () s else skipToNL s

/-- objDeserializeHeader (obj.c lines 495-533): start cookie, the 3-letter
record type (c0 c1 c2), `:1:`, object id number, version number, range
check on the id, then skip to end of line.  Returns (objID, version). -/
def objDeserializeHeader (c0 c1 c2 : Char) (s : List Char) : ParseOut (Nat × Int) :=
  pbind (expectChar COOKIE_OBJLINE .INVALID_HEADER s) (fun _ s =>
  pbind (expectChar c0 .INVALID_HEADER_RECTYPE s) (fun _ s =>
  pbind (expectChar c1 .INVALID_HEADER_RECTYPE s) (fun _ s =>
  pbind (expectChar c2 .INVALID_HEADER_RECTYPE s) (fun _ s =>
  pbind (expectChar ':' .INVALID_HEADER s) (fun _ s =>
  pbind (expectChar '1' .INVALID_HEADER_VERS s) (fun _ s =>
  pbind (expectChar ':' .INVALID_HEADER_VERS s) (fun _ s =>
  pbind (objDeserializeNumber s) (fun ioID s =>
  pbind (objDeserializeNumber s) (fun oVers s =>
  if ioID < 1 ∨ (OBJ_NUM_IDS : Int) ≤ ioID then .err .INVALID_OID s
  else pbind (skipToNL s) (fun _ s => .ok (ioID.toNat, oVers) s))))))))))

/-- The property-name loop of objDeserializeProperty: collects characters up
to the `:` delimiter (which is consumed and not part of the name). -/
def readNameLoop : List Char → List Char → ParseOut (List Char)
  | _, [] => .err .EOF []
  | acc, c :: s => if c = ':' then .ok acc s else readNameLoop (acc ++ [c]) s

/-- The type dispatch of objDeserializeProperty (obj.c lines 574-587): a
string needs the declared length, a number and a timestamp are
self-delimiting, any other tag reads nothing and leaves the value unset. -/
def valParse (vt iLen : Int) (s : List Char) : ParseOut VarVal :=
  if vt = VARTYPE_STR then
    pbind (objDeserializeStr iLen s) (fun v s => .ok (.vstr v) s)
  else if vt = VARTYPE_NUMBER then
    pbind (objDeserializeNumber s) (fun n s => .ok (.vnum n) s)
  else if vt = VARTYPE_SYSLOGTIME then
    pbind (objDeserializeSyslogTime s) (fun t s => .ok (.vtime t) s)
  else .ok .unset s

/-- The part of objDeserializeProperty after the cookie check: name, type
tag, length, the dispatched value and the terminating newline. -/
def propLineBody (s1 : List Char) : ParseOut var_t :=
  pbind (readNameLoop [] s1) (fun nm s =>
  pbind (objDeserializeNumber s) (fun vt s =>
  pbind (objDeserializeNumber s) (fun iLen s =>
  pbind (valParse vt iLen s) (fun v s =>
  pbind (rdChar s) (fun c2 s =>
  if c2 = '\n' then .ok ⟨nm, vt, v⟩ s else .err .INVALID_PROPFRAME s)))))

/-- objDeserializeProperty (obj.c lines 539-595): if the first character is
not the property cookie it is pushed back and the distinguished
NO_PROPLINE outcome is reported; otherwise the property line is read. -/
def objDeserializeProperty (s : List Char) : ParseOut var_t :=
  match s with
  | [] => .err .EOF []
  | c :: s1 =>
    if c = COOKIE_PROPLINE then propLineBody s1
    else .err .NO_PROPLINE (c :: s1)

/-- objDeserializeTrailer (obj.c lines 602-618): the literal sequence
`>End\n.\n`, checked character by character. -/
def objDeserializeTrailer (s : List Char) : ParseOut Unit :=
  pbind (expectChar COOKIE_ENDLINE .INVALID_TRAILER s) (fun _ s =>
  pbind (expectChar 'E' .INVALID_TRAILER s) (fun _ s =>
  pbind (expectChar 'n' .INVALID_TRAILER s) (fun _ s =>
  pbind (expectChar 'd' .INVALID_TRAILER s) (fun _ s =>
  pbind (expectChar '\n' .INVALID_TRAILER s) (fun _ s =>
  pbind (expectChar COOKIE_BLANKLINE .INVALID_TRAILER s) (fun _ s =>
  expectChar '\n' .INVALID_TRAILER s))))))

/-! ## Recovery scanner -/

/-- The scan loop of objDeserializeTryRecover (obj.c lines 641-651): track
whether the previous character was a newline; stop as soon as a newline
was immediately followed by the object cookie. -/
def tryRecoverScan : Bool → List Char → ParseOut Unit
  | _, [] => .err .EOF []
  | bWasNL, c :: s =>
    if c = '\n' then tryRecoverScan true s
    else if bWasNL then
      if c = COOKIE_OBJLINE then .ok () s else tryRecoverScan false s
    else tryRecoverScan false s

/-- objDeserializeTryRecover (obj.c lines 630-658): scan forward for a
newline immediately followed by the object cookie, then push the cookie
back; stream exhaustion surfaces as the EOF error of NEXTC. -/
def objDeserializeTryRecover (s : List Char) : ParseOut Unit :=
  match tryRecoverScan false s with
  | .ok _ s1 => .ok () (COOKIE_OBJLINE :: s1)
  | .err e s1 => .err e s1

/-! ## Stream-consumption bounds

No deserializer routine ever leaves the stream longer than it found it
(the single pushback slot only ever restores a character the same routine
just read); a successful property parse and a successful recovery scan
strictly consume.  These bounds justify termination of the retry loops. -/

theorem pbind_rem_le {α β : Type} (m : ParseOut α) (f : α → List Char → ParseOut β) (n : Nat)
    (hm : m.rem.length ≤ n) (hf : ∀ a s, ((f a s).rem).length ≤ s.length) :
    ((pbind m f).rem).length ≤ n := by
  cases m with
  | ok a s => exact le_trans (hf a s) (by simpa [ParseOut.rem] using hm)
  | err e s => simpa [pbind, ParseOut.rem] using hm

theorem rdChar_rem_le (s : List Char) : ((rdChar s).rem).length ≤ s.length := by
  cases s <;> simp [rdChar, ParseOut.rem]

theorem expectChar_rem_le (want : Char) (code : RsRet) (s : List Char) :
    ((expectChar want code s).rem).length ≤ s.length := by
  apply pbind_rem_le _ _ _ (rdChar_rem_le s)
  intro c s1
  split <;> simp [ParseOut.rem]

theorem scanNumber_rem_le (i : Int) (c : Char) (s : List Char) :
    ((scanNumber i c s).rem).length ≤ s.length := by
  induction s generalizing i c with
  | nil =>
    rw [scanNumber]
    split <;> simp [ParseOut.rem]
  | cons c2 s2 ih =>
    rw [scanNumber]
    split
    · exact le_trans (ih _ _) (by simp)
    · simp [ParseOut.rem]

theorem numBody_rem_le (b : Bool) (c : Char) (s : List Char) :
    ((numBody b c s).rem).length ≤ s.length := by
  rw [numBody]
  split
  · apply pbind_rem_le _ _ _ (scanNumber_rem_le 0 c s)
    intro r s1
    split <;> simp [ParseOut.rem]
  · simp [ParseOut.rem]

theorem objDeserializeNumber_rem_le (s : List Char) :
    ((objDeserializeNumber s).rem).length ≤ s.length := by
  cases s with
  | nil => simp [objDeserializeNumber, ParseOut.rem]
  | cons c s1 =>
    by_cases hc : c = '-'
    · cases s1 with
      | nil => simp [objDeserializeNumber, hc, ParseOut.rem]
      | cons c2 s2 =>
        have hstep : objDeserializeNumber (c :: c2 :: s2) = numBody true c2 s2 := by
          simp [objDeserializeNumber, hc]
        rw [hstep]
        exact le_trans (numBody_rem_le true c2 s2) (by simp only [List.length_cons]; omega)
    · have hstep : objDeserializeNumber (c :: s1) = numBody false c s1 := by
        simp [objDeserializeNumber, hc]
      rw [hstep]
      exact le_trans (numBody_rem_le false c s1) (by simp)

theorem readNChars_rem_le (n : Nat) (acc s : List Char) :
    ((readNChars n acc s).rem).length ≤ s.length := by
  induction n generalizing acc s with
  | zero => simp [readNChars, ParseOut.rem]
  | succ n ih =>
    cases s with
    | nil => simp [readNChars, ParseOut.rem]
    | cons c s2 => exact le_trans (ih (acc ++ [c]) s2) (by simp)

theorem objDeserializeStr_rem_le (iLen : Int) (s : List Char) :
    ((objDeserializeStr iLen s).rem).length ≤ s.length := by
  rw [objDeserializeStr]
  split
  · simp [ParseOut.rem]
  · apply pbind_rem_le _ _ _ (readNChars_rem_le iLen.toNat [] s)
    intro v s1
    apply pbind_rem_le _ _ _ (rdChar_rem_le s1)
    intro c s2
    split <;> simp [ParseOut.rem]

theorem objDeserializeSyslogTime_rem_le (s : List Char) :
    ((objDeserializeSyslogTime s).rem).length ≤ s.length := by
  rw [objDeserializeSyslogTime]
  apply pbind_rem_le _ _ _ (objDeserializeNumber_rem_le s)
  intro _ s
  apply pbind_rem_le _ _ _ (objDeserializeNumber_rem_le s)
  intro _ s
  apply pbind_rem_le _ _ _ (objDeserializeNumber_rem_le s)
  intro _ s
  apply pbind_rem_le _ _ _ (objDeserializeNumber_rem_le s)
  intro _ s
  apply pbind_rem_le _ _ _ (objDeserializeNumber_rem_le s)
  intro _ s
  apply pbind_rem_le _ _ _ (objDeserializeNumber_rem_le s)
  intro _ s
  apply pbind_rem_le _ _ _ (objDeserializeNumber_rem_le s)
  intro _ s
  apply pbind_rem_le _ _ _ (objDeserializeNumber_rem_le s)
  intro _ s
  apply pbind_rem_le _ _ _ (objDeserializeNumber_rem_le s)
  intro _ s
  apply pbind_rem_le _ _ _ (rdChar_rem_le s)
  intro _ s
  apply pbind_rem_le _ _ _ (rdChar_rem_le s)
  intro c s
  split
  · apply pbind_rem_le _ _ _ (objDeserializeNumber_rem_le s)
    intro _ s
    apply pbind_rem_le _ _ _ (objDeserializeNumber_rem_le s)
    intro _ s
    simp [ParseOut.rem]
  · simp [ParseOut.rem]

theorem skipToNL_rem_le (s : List Char) : ((skipToNL s).rem).length ≤ s.length := by
  induction s with
  | nil => simp [skipToNL, ParseOut.rem]
  | cons c s2 ih =>
    rw [skipToNL]
    split
    · simp [ParseOut.rem]
    · exact le_trans ih (by simp)

theorem objDeserializeHeader_rem_le (c0 c1 c2 : Char) (s : List Char) :
    ((objDeserializeHeader c0 c1 c2 s).rem).length ≤ s.length := by
  rw [objDeserializeHeader]
  apply pbind_rem_le _ _ _ (expectChar_rem_le COOKIE_OBJLINE .INVALID_HEADER s)
  intro _ s
  apply pbind_rem_le _ _ _ (expectChar_rem_le c0 .INVALID_HEADER_RECTYPE s)
  intro _ s
  apply pbind_rem_le _ _ _ (expectChar_rem_le c1 .INVALID_HEADER_RECTYPE s)
  intro _ s
  apply pbind_rem_le _ _ _ (expectChar_rem_le c2 .INVALID_HEADER_RECTYPE s)
  intro _ s
  apply pbind_rem_le _ _ _ (expectChar_rem_le ':' .INVALID_HEADER s)
  intro _ s
  apply pbind_rem_le _ _ _ (expectChar_rem_le '1' .INVALID_HEADER_VERS s)
  intro _ s
  apply pbind_rem_le _ _ _ (expectChar_rem_le ':' .INVALID_HEADER_VERS s)
  intro _ s
  apply pbind_rem_le _ _ _ (objDeserializeNumber_rem_le s)
  intro _ s
  apply pbind_rem_le _ _ _ (objDeserializeNumber_rem_le s)
  intro _ s
  split
  · simp [ParseOut.rem]
  · apply pbind_rem_le _ _ _ (skipToNL_rem_le s)
    intro _ s
    simp [ParseOut.rem]

theorem readNameLoop_rem_le (acc s : List Char) :
    ((readNameLoop acc s).rem).length ≤ s.length := by
  induction s generalizing acc with
  | nil => simp [readNameLoop, ParseOut.rem]
  | cons c s2 ih =>
    rw [readNameLoop]
    split
    · simp [ParseOut.rem]
    · exact le_trans (ih (acc ++ [c])) (by simp)

theorem valParse_rem_le (vt iLen : Int) (s : List Char) :
    ((valParse vt iLen s).rem).length ≤ s.length := by
  rw [valParse]
  split
  · apply pbind_rem_le _ _ _ (objDeserializeStr_rem_le iLen s)
    intro _ s
    simp [ParseOut.rem]
  · split
    · apply pbind_rem_le _ _ _ (objDeserializeNumber_rem_le s)
      intro _ s
      simp [ParseOut.rem]
    · split
      · apply pbind_rem_le _ _ _ (objDeserializeSyslogTime_rem_le s)
        intro _ s
        simp [ParseOut.rem]
      · simp [ParseOut.rem]

theorem propLineBody_rem_le (s1 : List Char) :
    ((propLineBody s1).rem).length ≤ s1.length := by
  rw [propLineBody]
  apply pbind_rem_le _ _ _ (readNameLoop_rem_le [] s1)
  intro _ s
  apply pbind_rem_le _ _ _ (objDeserializeNumber_rem_le s)
  intro vt s
  apply pbind_rem_le _ _ _ (objDeserializeNumber_rem_le s)
  intro iLen s
  apply pbind_rem_le _ _ _ (valParse_rem_le vt iLen s)
  intro _ s
  apply pbind_rem_le _ _ _ (rdChar_rem_le s)
  intro _ s
  split <;> simp [ParseOut.rem]

/-- A successful property parse consumes at least the cookie character. -/
theorem objDeserializeProperty_ok_lt (s : List Char) (v : var_t) (s2 : List Char)
    (h : objDeserializeProperty s = .ok v s2) : s2.length < s.length := by
  cases s with
  | nil => simp [objDeserializeProperty] at h
  | cons c s1 =>
    rw [objDeserializeProperty] at h
    by_cases hc : c = COOKIE_PROPLINE
    · rw [if_pos hc] at h
      have := propLineBody_rem_le s1
      rw [h] at this
      simp only [ParseOut.rem, List.length_cons] at this ⊢
      omega
    · rw [if_neg hc] at h
      exact absurd h (by simp)

theorem tryRecoverScan_ok_le (s : List Char) :
    ∀ (b : Bool) (rest : List Char), tryRecoverScan b s = .ok () rest →
      rest.length + 1 ≤ s.length ∧ (b = false → rest.length + 2 ≤ s.length) := by
  induction s with
  | nil => intro b rest h; simp [tryRecoverScan] at h
  | cons c s2 ih =>
    intro b rest h
    rw [tryRecoverScan] at h
    have hlen : (c :: s2).length = s2.length + 1 := by simp
    by_cases hnl : c = '\n'
    · rw [if_pos hnl] at h
      have h1 := (ih true rest h).1
      exact ⟨by omega, fun _ => by omega⟩
    · rw [if_neg hnl] at h
      cases b with
      | true =>
        simp only [eq_self_iff_true, if_true] at h
        by_cases hck : c = COOKIE_OBJLINE
        · rw [if_pos hck] at h
          injection h with h1 h2
          subst h2
          exact ⟨by omega, fun hf => by cases hf⟩
        · rw [if_neg hck] at h
          have h2 := (ih false rest h).2 rfl
          exact ⟨by omega, fun _ => by omega⟩
      | false =>
        simp only [Bool.false_eq_true, if_false] at h
        have h2 := (ih false rest h).2 rfl
        exact ⟨by omega, fun _ => by omega⟩

/-- A successful recovery strictly consumes stream, even counting the
pushed-back cookie. -/
theorem objDeserializeTryRecover_ok_lt (s s2 : List Char) (a : Unit)
    (h : objDeserializeTryRecover s = .ok a s2) : s2.length < s.length := by
  rw [objDeserializeTryRecover] at h
  cases hscan : tryRecoverScan false s with
  | ok u rest =>
    cases u
    rw [hscan] at h
    injection h with h1 h2
    have hlen := (tryRecoverScan_ok_le s false rest hscan).2 rfl
    subst h2
    simp only [List.length_cons]
    omega
  | err e rest =>
    rw [hscan] at h
    simp at h

/-! ## Header retry loop and property loop -/

/-- The `do { header; if(fail) tryRecover; } while(fail)` loop shared by the
property-bag deserializers (obj.c lines 778-784 and 824-830): retry the
header after each successful recovery; a recovery failure (stream
exhaustion) ends the whole operation with that error. -/
def headerRetryLoop (c0 c1 c2 : Char) (s : List Char) : ParseOut (Nat × Int) :=
  match h1 : objDeserializeHeader c0 c1 c2 s with
  | .ok r s1 => .ok r s1
  | .err _ s1 =>
    match h2 : objDeserializeTryRecover s1 with
    | .ok _ s2 => headerRetryLoop c0 c1 c2 s2
    | .err e s2 => .err e s2
termination_by s.length
decreasing_by
  have hh := objDeserializeHeader_rem_le c0 c1 c2 s
  rw [h1] at hh
  simp only [ParseOut.rem] at hh
  have hr := objDeserializeTryRecover_ok_lt s1 s2 _ h2
  omega

/-- The property loop of objDeserializeProperties (obj.c lines 677-681):
parse property lines and dispatch each into the property-setter until a
parse does not return OK. -/
def deserializePropsLoop {β : Type} (setProp : β → var_t → Except RsRet β) (pObj : β)
    (s : List Char) : ParseOut β :=
  match h1 : objDeserializeProperty s with
  | .ok pVar s1 =>
    match setProp pObj pVar with
    | .ok pObj2 => deserializePropsLoop setProp pObj2 s1
    | .error e => .err e s1
  | .err e s1 => if e = .NO_PROPLINE then .ok pObj s1 else .err e s1
termination_by s.length
decreasing_by
  exact objDeserializeProperty_ok_lt s pVar s1 h1

/-- objDeserializeProperties (obj.c lines 665-690): the property loop, then
— only when the loop ended with the expected NO_PROPLINE — the trailer.
The target object is threaded through the class's SETPROPERTY capability,
the only method this routine dispatches to. -/
def objDeserializeProperties {β : Type} (setProp : β → var_t → Except RsRet β) (pObj : β)
    (s : List Char) : ParseOut β :=
  pbind (deserializePropsLoop setProp pObj s) (fun pObj2 s1 =>
    pbind (objDeserializeTrailer s1) (fun _ s2 => .ok pObj2 s2))

/-! ## Capability dispatch used by Deserialize

The C code reaches a class's constructor, property-setter and
construction-finalizer through `arrObjInfo[oID]->objMethods[...]`.  For
the deserializer the registry is abstracted as a map from class id to the
executable behaviour of those three capability slots; the instance type β
is arbitrary, so a theorem quantified over it can show a capability is
never exercised. -/
structure ClassOps (β : Type) where
  construct : Except RsRet β
  setProperty : β → var_t → Except RsRet β
  isConstructionFinalizerImplemented : Bool
  constructionFinalizer : β → Except RsRet β

/-- Deserialize (obj.c lines 701-754).  The entry assertions are modelled as
ABORTED.  NOTE the faithful modelling of obj.c line 725: when header
parsing fails, the C code calls `abort()` before the recovery call on
line 726, so the failure branch terminates the process and the recovery
code is unreachable; the model therefore returns ABORTED there.  After a
successful header: id check against the expected class id, constructor
capability, properties (including trailer), optional fixup function, and
the construction finalizer capability when implemented. -/
def Deserialize {β : Type} (reg : Nat → ClassOps β) (fFixup : Option (β → Except RsRet β))
    (objTypeExpected : Nat) (s : List Char) : ParseOut β :=
  if 0 < objTypeExpected ∧ objTypeExpected < OBJ_NUM_IDS then
    match objDeserializeHeader 'O' 'b' 'j' s with
    | .err _ s1 => .err .ABORTED s1
    | .ok oIDv s1 =>
      if oIDv.1 ≠ objTypeExpected then .err .INVALID_OID s1
      else
        match (reg oIDv.1).construct with
        | .error e => .err e s1
        | .ok pObj =>
          pbind (objDeserializeProperties (reg oIDv.1).setProperty pObj s1) (fun pObj2 s2 =>
            match (match fFixup with | none => Except.ok pObj2 | some f => f pObj2) with
            | .error e => .err e s2
            | .ok pObj3 =>
              if (reg oIDv.1).isConstructionFinalizerImplemented then
                match (reg oIDv.1).constructionFinalizer pObj3 with
                | .error e => .err e s2
                | .ok pObj4 => .ok pObj4 s2
              else .ok pObj3 s2)
  else .err .ABORTED s

/-- objDeserializeObjAsPropBag (obj.c lines 760-794): header retry loop with
expected record type "Obj", id check against the given instance's own
class id, then properties (including trailer).  No constructor, fixup or
finalizer step exists; only the SETPROPERTY capability is passed in. -/
def objDeserializeObjAsPropBag {β : Type} (setProp : β → var_t → Except RsRet β)
    (pObjID : Nat) (pObj : β) (s : List Char) : ParseOut β :=
  pbind (headerRetryLoop 'O' 'b' 'j' s) (fun oIDv s1 =>
    if oIDv.1 ≠ pObjID then .err .INVALID_OID s1
    else objDeserializeProperties setProp pObj s1)

/-- DeserializePropBag (obj.c lines 806-840): identical to
objDeserializeObjAsPropBag except that the expected record type is "OPB". -/
def DeserializePropBag {β : Type} (setProp : β → var_t → Except RsRet β)
    (pObjID : Nat) (pObj : β) (s : List Char) : ParseOut β :=
  pbind (headerRetryLoop 'O' 'P' 'B' s) (fun oIDv s1 =>
    if oIDv.1 ≠ pObjID then .err .INVALID_OID s1
    else objDeserializeProperties setProp pObj s1)

/-- The spec's description of a property-bag deserialization entry point
(spec section 4.4), written from its words: a Header(tag)+recovery retry
loop, the class-id check against the caller-owned instance, then
readProperties with the trailer; no construction, fixup or finalizer
step.  Used to compare the two entry points of obj.c against the spec. -/
def deserializePropBagSpec {β : Type} (t0 t1 t2 : Char) (setProp : β → var_t → Except RsRet β)
    (pObjID : Nat) (pObj : β) (s : List Char) : ParseOut β :=
  pbind (headerRetryLoop t0 t1 t2 s) (fun oIDv s1 =>
    if oIDv.1 ≠ pObjID then .err .INVALID_OID s1
    else objDeserializeProperties setProp pObj s1)

/-! ## Class registry and capability table (obj.c lines 96-153 and 909-923) -/

/-- Modelled from the spec: obj.h (not in src/) defines the objMethod_t
enumeration; slots 0 and 1 are constructor and destructor, the
enumeration also names SETPROPERTY and CONSTRUCTION_FINALIZER.  The exact
count is taken as 7; no claim depends on the exact value. -/
def OBJ_NUM_METHODS : Nat := 7

/-- One entry of the per-class jump table: either the shared sentinel
objInfoNotImplementedDummy (obj.c lines 96-99) or an explicitly installed
handler, identified abstractly by a tag standing for the C function
pointer. -/
inductive MethodSlot where
  | dummy
  | handler (h : Nat)
deriving DecidableEq, Repr

/-- Calling through the jump table: the sentinel always returns
RS_RET_NOT_IMPLEMENTED (obj.c lines 96-99); an installed handler returns
whatever that handler returns, supplied by the environment `impl`. -/
def invokeSlot (impl : Nat → RsRet) : MethodSlot → RsRet
  | .dummy => .NOT_IMPLEMENTED
  | .handler h => impl h

/-- objInfo_t: class name, wire version, class id and the fixed-size method
jump table (indices beyond OBJ_NUM_METHODS are never read or written, the
table is total only because it is modelled as a function). -/
structure objInfo_t where
  pszName : List Char
  iObjVers : Int
  objID : Nat
  objMethods : Nat → MethodSlot

/-- InfoConstruct (obj.c lines 113-141): build a class descriptor with the
constructor at slot 0, the destructor at slot 1 and the sentinel
everywhere else.  The calloc-failure (OUT_OF_MEMORY) path allocates
nothing and is not modelled. -/
def InfoConstruct (objID : Nat) (pszName : List Char) (iObjVers : Int)
    (pConstruct pDestruct : Nat) : objInfo_t :=
  { pszName := pszName, iObjVers := iObjVers, objID := objID,
    objMethods := fun m =>
      if m = 0 then .handler pConstruct
      else if m = 1 then .handler pDestruct
      else .dummy }

/-- InfoSetMethod (obj.c lines 145-153): `assert(objMethod > 0 && objMethod <
OBJ_NUM_METHODS)` — an index outside that open-below range aborts the
process (modelled as `none`); otherwise the slot is overwritten and
RS_RET_OK returned. -/
def InfoSetMethod (pThis : objInfo_t) (objMethod : Nat) (pHandler : Nat) :
    Option (objInfo_t × RsRet) :=
  if 0 < objMethod ∧ objMethod < OBJ_NUM_METHODS then
    some ({ pThis with objMethods := fun m =>
              if m = objMethod then .handler pHandler else pThis.objMethods m }, .OK)
  else none

/-- The objInfoIsImplemented macro (obj.c lines 104-105): a slot is
implemented iff it does not hold the sentinel. -/
def objInfoIsImplemented (pThis : objInfo_t) (method : Nat) : Bool :=
  match pThis.objMethods method with
  | .dummy => false
  | .handler _ => true

/-- RegisterObj (obj.c lines 909-923).  The `assert(arrObjInfo[oID] == NULL)`
runs before the range check and is modelled as `none` on an occupied
slot; then the range check `oID < 1 || oID > OBJ_NUM_IDS` (note: `>`, not
`>=`) rejects with RS_RET_INVALID_OID, and otherwise the descriptor is
stored at index oID. -/
def RegisterObj (arrObjInfo : Nat → Option objInfo_t) (oID : Nat) (pInfo : objInfo_t) :
    Option ((Nat → Option objInfo_t) × RsRet) :=
  match arrObjInfo oID with
  | some _ => none
  | none =>
    if oID < 1 ∨ OBJ_NUM_IDS < oID then some (arrObjInfo, .INVALID_OID)
    else some (fun i => if i = oID then some pInfo else arrObjInfo i, .OK)

/-- A sequence of InfoSetMethod calls applied to a descriptor; `none` as soon
as one of them hits the assertion. -/
def applySetMethods (pThis : objInfo_t) : List (Nat × Nat) → Option objInfo_t
  | [] => some pThis
  | mh :: rest =>
    match InfoSetMethod pThis mh.1 mh.2 with
    | none => none
    | some r => applySetMethods r.1 rest

/-! ## Serialization (obj.c lines 177-383) -/

/-- Modelled from the spec: the propType_t enumeration of obj.h (not in
src/) naming the C types a property value can be taken from.  The exact
numeric values are irrelevant to every claim; what matters is which tags
the switch in SerializeProp recognizes. -/
def PROPTYPE_PSZ : Nat := 1
/-- Property-source type tag: short (see PROPTYPE_PSZ). -/
def PROPTYPE_SHORT : Nat := 2
/-- Property-source type tag: int (see PROPTYPE_PSZ). -/
def PROPTYPE_INT : Nat := 3
/-- Property-source type tag: long (see PROPTYPE_PSZ). -/
def PROPTYPE_LONG : Nat := 4
/-- Property-source type tag: int64 (see PROPTYPE_PSZ). -/
def PROPTYPE_INT64 : Nat := 5
/-- Property-source type tag: counted string (see PROPTYPE_PSZ). -/
def PROPTYPE_CSTR : Nat := 6
/-- Property-source type tag: composite timestamp (see PROPTYPE_PSZ). -/
def PROPTYPE_SYSLOGTIME : Nat := 7

/-- The bytes strlen sees: everything before the first NUL character.  A C
string (PROPTYPE_PSZ) is measured and written through this prefix. -/
def strlenPrefix (s : List Char) : List Char :=
  s.takeWhile (fun c => c ≠ Char.ofNat 0)

/-- Modelled from the spec: srUtilItoA (srUtils.c, not in src/) renders a
value as decimal ASCII into a caller buffer of the given size, failing
when the rendering (plus NUL) would not fit. -/
def srUtilItoA (maxLen : Nat) (i : Int) : Except RsRet (List Char) :=
  if maxLen ≤ (intToDec i).length then Except.error .PROVIDED_BUFFER_TOO_SMALL
  else Except.ok (intToDec i)

/-- The `%d:%d:%d:%d:%d:%d:%d:%d:%d:%c:%d:%d` rendering of a timestamp
(obj.c lines 317-329): twelve colon-separated fields, the tenth being the
single offset-mode character. -/
def timeRender (t : SyslogTime) : List Char :=
  intToDec t.timeType ++ ':' :: (intToDec t.year ++ ':' :: (intToDec t.month ++ ':' ::
  (intToDec t.day ++ ':' :: (intToDec t.hour ++ ':' :: (intToDec t.minute ++ ':' ::
  (intToDec t.second ++ ':' :: (intToDec t.secfrac ++ ':' ::
  (intToDec t.secfracPrecision ++ ':' :: (t.OffsetMode :: ':' ::
  (intToDec t.OffsetHour ++ ':' :: intToDec t.OffsetMinute))))))))))

/-- Projection of a variant value as the string the C code would read
through a pointer cast; a mismatching tag is undefined behaviour in C and
yields an arbitrary fixed value here (no claim exercises a mismatch). -/
def valStr : VarVal → List Char
  | .vstr s => s
  | _ => []

/-- Projection of a variant value as a number (see valStr). -/
def valNum : VarVal → Int
  | .vnum n => n
  | _ => 0

/-- Projection of a variant value as a timestamp (see valStr). -/
def valTime : VarVal → SyslogTime
  | .vtime t => t
  | _ => ⟨0, 0, 0, 0, 0, 0, 0, 0, 0, '+', 0, 0⟩

/-- The switch of SerializeProp (obj.c lines 281-338): per property type,
the encoded value bytes and the wire value-type tag.  The default branch
only logs and keeps the initial `pszBuf = NULL, lenBuf = 0, vType =
VARTYPE_NONE`. -/
def serializePropBody (propType : Nat) (v : VarVal) : Except RsRet (List Char × Int) :=
  if propType = PROPTYPE_PSZ then
    Except.ok (strlenPrefix (valStr v), VARTYPE_STR)
  else if propType = PROPTYPE_SHORT ∨ propType = PROPTYPE_INT ∨
      propType = PROPTYPE_LONG ∨ propType = PROPTYPE_INT64 then
    match srUtilItoA 64 (valNum v) with
    | .error e => .error e
    | .ok b => .ok (b, VARTYPE_NUMBER)
  else if propType = PROPTYPE_CSTR then
    Except.ok (valStr v, VARTYPE_STR)
  else if propType = PROPTYPE_SYSLOGTIME then
    if 64 - 1 < (timeRender (valTime v)).length then .error .PROVIDED_BUFFER_TOO_SMALL
    else .ok (timeRender (valTime v), VARTYPE_SYSLOGTIME)
  else .ok ([], VARTYPE_NONE)

/-- SerializeProp (obj.c lines 258-361): nothing at all is written for an
absent value (RS_RET_OK); otherwise the property line is
`+name:vType:length:value:\n`. -/
def SerializeProp (pszPropName : List Char) (propType : Nat) (pUsr : Option VarVal) :
    Except RsRet (List Char) :=
  match pUsr with
  | none => Except.ok []
  | some v =>
    match serializePropBody propType v with
    | .error e => .error e
    | .ok bt =>
      Except.ok (COOKIE_PROPLINE :: (pszPropName ++ ':' :: (intToDec bt.2 ++ ':' ::
        (natToDec bt.1.length ++ ':' :: (bt.1 ++ ':' :: ['\n'])))))

/-- objSerializeHeader (obj.c lines 177-209): start cookie, 3-octet record
type, `:1:`, class id, `:`, class version, `:`, class name, `:\n`. -/
def objSerializeHeader (recType : List Char) (oID : Nat) (oVers : Int)
    (pszClassName : List Char) : List Char :=
  COOKIE_OBJLINE :: (recType ++ ':' :: '1' :: ':' :: (natToDec oID ++ ':' ::
    (intToDec oVers ++ ':' :: (pszClassName ++ [':', '\n']))))

/-- EndSerialize (obj.c lines 367-383): end cookie, the four bytes `End\n`,
blank-line cookie, `\n`.  strmRecordEnd adds no bytes. -/
def endSerializeBytes : List Char :=
  COOKIE_ENDLINE :: 'E' :: 'n' :: 'd' :: '\n' :: COOKIE_BLANKLINE :: ['\n']

/-- One property as a caller hands it to SerializeProp: name, propType_t tag
and the (present) value. -/
structure PropIn where
  name : List Char
  ptype : Nat
  val : VarVal
deriving DecidableEq, Repr

/-- Serialization of a list of present properties, concatenating the lines
SerializeProp writes, failing as soon as one of them fails. -/
def serializeProps : List PropIn → Except RsRet (List Char)
  | [] => Except.ok []
  | p :: ps =>
    match SerializeProp p.name p.ptype (some p.val) with
    | .error e => .error e
    | .ok l =>
      match serializeProps ps with
      | .error e => .error e
      | .ok ls => .ok (l ++ ls)

/-- A whole serialized object record, as BeginSerialize ("Obj" header, obj.c
lines 215-228), SerializeProp per property and EndSerialize produce it on
the record-transactional stream. -/
def serializeRecord (oID : Nat) (oVers : Int) (pszClassName : List Char)
    (props : List PropIn) : Except RsRet (List Char) :=
  match serializeProps props with
  | .error e => .error e
  | .ok body => .ok (objSerializeHeader ['O', 'b', 'j'] oID oVers pszClassName ++
      (body ++ endSerializeBytes))

/-! ## Exact-parse facts: each grammar primitive inverts its writer -/

theorem readNChars_exact (v : List Char) : ∀ (acc rest : List Char),
    readNChars v.length acc (v ++ rest) = .ok (acc ++ v) rest := by
  induction v with
  | nil => intro acc rest; simp [readNChars]
  | cons c v ih =>
    intro acc rest
    simp only [List.length_cons, List.cons_append, readNChars, List.append_eq]
    rw [ih (acc ++ [c]) rest]
    simp

theorem objDeserializeStr_exact (v : List Char) (hv : v ≠ []) (rest : List Char) :
    objDeserializeStr (v.length : Int) (v ++ ':' :: rest) = .ok v rest := by
  have hpos : ¬ ((v.length : Int) ≤ 0) := by
    have : 0 < v.length := List.length_pos.mpr hv
    omega
  rw [objDeserializeStr, if_neg hpos]
  have htn : (v.length : Int).toNat = v.length := by omega
  rw [htn, readNChars_exact v [] (':' :: rest)]
  simp [pbind, rdChar]

theorem readNameLoop_exact (nm : List Char) (hnm : ':' ∉ nm) : ∀ (acc rest : List Char),
    readNameLoop acc (nm ++ ':' :: rest) = .ok (acc ++ nm) rest := by
  induction nm with
  | nil => intro acc rest; simp [readNameLoop]
  | cons c nm ih =>
    intro acc rest
    have hc : c ≠ ':' := fun h => hnm (h ▸ List.mem_cons_self c nm)
    have hnm' : ':' ∉ nm := fun h => hnm (List.mem_cons_of_mem c h)
    simp only [List.cons_append, readNameLoop, if_neg hc, List.append_eq]
    rw [ih hnm' (acc ++ [c]) rest]
    simp

theorem skipToNL_exact (l : List Char) (hl : '\n' ∉ l) (rest : List Char) :
    skipToNL (l ++ '\n' :: rest) = .ok () rest := by
  induction l with
  | nil => simp [skipToNL]
  | cons c l ih =>
    have hc : c ≠ '\n' := fun h => hl (h ▸ List.mem_cons_self c l)
    have hl' : '\n' ∉ l := fun h => hl (List.mem_cons_of_mem c h)
    simp only [List.cons_append, skipToNL, if_neg hc]
    exact ih hl'

theorem objDeserializeTrailer_exact (rest : List Char) :
    objDeserializeTrailer (endSerializeBytes ++ rest) = .ok () rest := by
  simp [objDeserializeTrailer, endSerializeBytes, expectChar, rdChar, pbind,
    COOKIE_ENDLINE, COOKIE_BLANKLINE]

theorem objDeserializeSyslogTime_exact (t : SyslogTime) (rest : List Char) :
    objDeserializeSyslogTime (timeRender t ++ ':' :: rest) = .ok t rest := by
  rw [objDeserializeSyslogTime, timeRender]
  simp only [List.cons_append, List.append_assoc]
  rw [objDeserializeNumber_intToDec]
  simp only [pbind]
  rw [objDeserializeNumber_intToDec]
  simp only [pbind]
  rw [objDeserializeNumber_intToDec]
  simp only [pbind]
  rw [objDeserializeNumber_intToDec]
  simp only [pbind]
  rw [objDeserializeNumber_intToDec]
  simp only [pbind]
  rw [objDeserializeNumber_intToDec]
  simp only [pbind]
  rw [objDeserializeNumber_intToDec]
  simp only [pbind]
  rw [objDeserializeNumber_intToDec]
  simp only [pbind]
  rw [objDeserializeNumber_intToDec]
  simp only [pbind, rdChar]
  rw [objDeserializeNumber_intToDec]
  simp only [pbind]
  rw [objDeserializeNumber_intToDec]
  simp [pbind]

theorem objDeserializeHeader_exact (c0 c1 c2 : Char) (oID : Nat) (oVers : Int)
    (cname : List Char) (rest : List Char) (hid1 : 1 ≤ oID) (hid2 : oID < OBJ_NUM_IDS)
    (hnm : '\n' ∉ cname) :
    objDeserializeHeader c0 c1 c2
      (objSerializeHeader [c0, c1, c2] oID oVers cname ++ rest) = .ok (oID, oVers) rest := by
  rw [objDeserializeHeader, objSerializeHeader]
  simp only [List.cons_append, List.append_assoc, List.nil_append, COOKIE_OBJLINE]
  simp only [expectChar, rdChar, pbind, eq_self_iff_true, if_true]
  rw [← intToDec_natCast oID, objDeserializeNumber_intToDec]
  simp only [pbind]
  rw [objDeserializeNumber_intToDec]
  simp only [pbind]
  have hrange : ¬ ((oID : Int) < 1 ∨ (OBJ_NUM_IDS : Int) ≤ (oID : Int)) := by
    push_neg
    constructor <;> [skip; skip] <;> omega
  rw [if_neg hrange]
  have hsk : '\n' ∉ cname ++ [':'] := by
    intro h
    rcases List.mem_append.mp h with h1 | h1
    · exact hnm h1
    · simp at h1
  have hassoc : cname ++ ':' :: '\n' :: rest = (cname ++ [':']) ++ '\n' :: rest := by
    simp
  rw [hassoc, skipToNL_exact _ hsk rest]
  simp [pbind]

/-! ## Property validity and the wire image of a property -/

/-- The conditions under which a present property is faithfully
serializable and deserializable: the name contains no `:` (the name
parser stops there); a C string is nonempty (the string decoder asserts a
positive length) and NUL-free (strlen measures it); a counted string is
nonempty; a number's rendering fits srUtilItoA's 64-byte buffer; a
timestamp's rendering fits the 64-byte scratch buffer. -/
def validProp (p : PropIn) : Bool :=
  decide (':' ∉ p.name) &&
  (if p.ptype = PROPTYPE_PSZ then
    match p.val with
    | .vstr s => decide (s ≠ []) && decide (Char.ofNat 0 ∉ s)
    | _ => false
  else if p.ptype = PROPTYPE_SHORT ∨ p.ptype = PROPTYPE_INT ∨
      p.ptype = PROPTYPE_LONG ∨ p.ptype = PROPTYPE_INT64 then
    match p.val with
    | .vnum n => decide ((intToDec n).length < 64)
    | _ => false
  else if p.ptype = PROPTYPE_CSTR then
    match p.val with
    | .vstr s => decide (s ≠ [])
    | _ => false
  else if p.ptype = PROPTYPE_SYSLOGTIME then
    match p.val with
    | .vtime t => decide ((timeRender t).length ≤ 63)
    | _ => false
  else false)

/-- The var_t the deserializer reconstructs from a serialized property:
same name, the wire value type the serializer chose, and the value. -/
def toVar (p : PropIn) : var_t :=
  if p.ptype = PROPTYPE_PSZ ∨ p.ptype = PROPTYPE_CSTR then
    ⟨p.name, VARTYPE_STR, .vstr (valStr p.val)⟩
  else if p.ptype = PROPTYPE_SHORT ∨ p.ptype = PROPTYPE_INT ∨
      p.ptype = PROPTYPE_LONG ∨ p.ptype = PROPTYPE_INT64 then
    ⟨p.name, VARTYPE_NUMBER, .vnum (valNum p.val)⟩
  else if p.ptype = PROPTYPE_SYSLOGTIME then
    ⟨p.name, VARTYPE_SYSLOGTIME, .vtime (valTime p.val)⟩
  else ⟨p.name, VARTYPE_NONE, .unset⟩

theorem strlenPrefix_eq_self (s : List Char) (h : Char.ofNat 0 ∉ s) :
    strlenPrefix s = s := by
  induction s with
  | nil => rfl
  | cons c s ih =>
    have hc : c ≠ Char.ofNat 0 := fun hh => h (hh ▸ List.mem_cons_self c s)
    have hs : Char.ofNat 0 ∉ s := fun hh => h (List.mem_cons_of_mem c hh)
    simp only [strlenPrefix, List.takeWhile_cons]
    rw [if_pos (by simpa using hc)]
    simpa [strlenPrefix] using ih hs

/-- Parsing one emitted property line `+name:vType:length:bytes:\n`, given
that the value parser consumes exactly the bytes plus the frame colon. -/
theorem propLine_parse (nm : List Char) (hnm : ':' ∉ nm) (vt : Int) (lenNat : Nat)
    (bytes : List Char) (v : VarVal) (rest : List Char)
    (hval : valParse vt (lenNat : Int) (bytes ++ ':' :: '\n' :: rest) = .ok v ('\n' :: rest)) :
    objDeserializeProperty
      ((COOKIE_PROPLINE :: (nm ++ ':' :: (intToDec vt ++ ':' ::
        (natToDec lenNat ++ ':' :: (bytes ++ ':' :: ['\n']))))) ++ rest) =
      .ok ⟨nm, vt, v⟩ rest := by
  simp only [List.cons_append, List.append_assoc]
  rw [objDeserializeProperty, if_pos rfl, propLineBody]
  rw [readNameLoop_exact nm hnm [] _]
  simp only [pbind, List.nil_append]
  rw [objDeserializeNumber_intToDec]
  simp only [pbind]
  rw [← intToDec_natCast lenNat, objDeserializeNumber_intToDec]
  simp only [pbind]
  have hb : bytes ++ ':' :: ('\n' :: rest) = bytes ++ ':' :: '\n' :: rest := rfl
  rw [hb, hval]
  simp [pbind, rdChar]

/-- Serializing one valid present property succeeds, and parsing the emitted
line back yields exactly the var_t image of that property. -/
theorem serializeProp_roundtrip (p : PropIn) (hv : validProp p = true) (rest : List Char) :
    ∃ line, SerializeProp p.name p.ptype (some p.val) = Except.ok line ∧
      objDeserializeProperty (line ++ rest) = .ok (toVar p) rest := by
  have hnm : ':' ∉ p.name := of_decide_eq_true ((Bool.and_eq_true _ _).mp hv).1
  have hbody := ((Bool.and_eq_true _ _).mp hv).2
  by_cases h1 : p.ptype = PROPTYPE_PSZ
  · rw [if_pos h1] at hbody
    cases hval : p.val with
    | vstr s =>
      rw [hval] at hbody
      have hs : s ≠ [] := of_decide_eq_true ((Bool.and_eq_true _ _).mp hbody).1
      have hn : Char.ofNat 0 ∉ s := of_decide_eq_true ((Bool.and_eq_true _ _).mp hbody).2
      refine ⟨COOKIE_PROPLINE :: (p.name ++ ':' :: (intToDec VARTYPE_STR ++ ':' ::
        (natToDec s.length ++ ':' :: (s ++ ':' :: ['\n'])))), ?_, ?_⟩
      · simp only [SerializeProp, serializePropBody, if_pos h1, hval, valStr,
          strlenPrefix_eq_self s hn]
      · have hval2 : valParse VARTYPE_STR ((s.length : Nat) : Int)
            (s ++ ':' :: '\n' :: rest) = .ok (.vstr s) ('\n' :: rest) := by
          rw [valParse, if_pos rfl, objDeserializeStr_exact s hs ('\n' :: rest)]
          rfl
        rw [propLine_parse p.name hnm VARTYPE_STR s.length s (.vstr s) rest hval2]
        rw [toVar, if_pos (Or.inl h1), hval]
        simp [valStr]
    | unset => rw [hval] at hbody; simp at hbody
    | vnum n => rw [hval] at hbody; simp at hbody
    | vtime t => rw [hval] at hbody; simp at hbody
  · rw [if_neg h1] at hbody
    by_cases h2 : p.ptype = PROPTYPE_SHORT ∨ p.ptype = PROPTYPE_INT ∨
        p.ptype = PROPTYPE_LONG ∨ p.ptype = PROPTYPE_INT64
    · rw [if_pos h2] at hbody
      cases hval : p.val with
      | vnum n =>
        rw [hval] at hbody
        have hlen : (intToDec n).length < 64 := of_decide_eq_true hbody
        have hfits : ¬ (64 ≤ (intToDec n).length) := by omega
        have hcstr : p.ptype ≠ PROPTYPE_CSTR := by
          rcases h2 with h | h | h | h <;> rw [h] <;> decide
        refine ⟨COOKIE_PROPLINE :: (p.name ++ ':' :: (intToDec VARTYPE_NUMBER ++ ':' ::
          (natToDec (intToDec n).length ++ ':' :: (intToDec n ++ ':' :: ['\n'])))), ?_, ?_⟩
        · simp only [SerializeProp, serializePropBody, if_neg h1, if_pos h2, hval, valNum,
            srUtilItoA, if_neg hfits]
        · have hval2 : valParse VARTYPE_NUMBER (((intToDec n).length : Nat) : Int)
              (intToDec n ++ ':' :: '\n' :: rest) = .ok (.vnum n) ('\n' :: rest) := by
            rw [valParse, if_neg (by decide), if_pos rfl,
              objDeserializeNumber_intToDec n ('\n' :: rest)]
            rfl
          rw [propLine_parse p.name hnm VARTYPE_NUMBER (intToDec n).length (intToDec n)
            (.vnum n) rest hval2]
          rw [toVar, if_neg (not_or.mpr ⟨h1, hcstr⟩), if_pos h2, hval]
          simp [valNum]
      | unset => rw [hval] at hbody; simp at hbody
      | vstr s => rw [hval] at hbody; simp at hbody
      | vtime t => rw [hval] at hbody; simp at hbody
    · rw [if_neg h2] at hbody
      by_cases h3 : p.ptype = PROPTYPE_CSTR
      · rw [if_pos h3] at hbody
        cases hval : p.val with
        | vstr s =>
          rw [hval] at hbody
          have hs : s ≠ [] := of_decide_eq_true hbody
          refine ⟨COOKIE_PROPLINE :: (p.name ++ ':' :: (intToDec VARTYPE_STR ++ ':' ::
            (natToDec s.length ++ ':' :: (s ++ ':' :: ['\n'])))), ?_, ?_⟩
          · simp only [SerializeProp, serializePropBody, if_neg h1, if_neg h2, if_pos h3,
              hval, valStr]
          · have hval2 : valParse VARTYPE_STR ((s.length : Nat) : Int)
                (s ++ ':' :: '\n' :: rest) = .ok (.vstr s) ('\n' :: rest) := by
              rw [valParse, if_pos rfl, objDeserializeStr_exact s hs ('\n' :: rest)]
              rfl
            rw [propLine_parse p.name hnm VARTYPE_STR s.length s (.vstr s) rest hval2]
            rw [toVar, if_pos (Or.inr h3), hval]
            simp [valStr]
        | unset => rw [hval] at hbody; simp at hbody
        | vnum n => rw [hval] at hbody; simp at hbody
        | vtime t => rw [hval] at hbody; simp at hbody
      · rw [if_neg h3] at hbody
        by_cases h4 : p.ptype = PROPTYPE_SYSLOGTIME
        · rw [if_pos h4] at hbody
          cases hval : p.val with
          | vtime t =>
            rw [hval] at hbody
            have hlen : (timeRender t).length ≤ 63 := of_decide_eq_true hbody
            have hfits : ¬ (64 - 1 < (timeRender t).length) := by omega
            refine ⟨COOKIE_PROPLINE :: (p.name ++ ':' :: (intToDec VARTYPE_SYSLOGTIME ++ ':' ::
              (natToDec (timeRender t).length ++ ':' :: (timeRender t ++ ':' :: ['\n'])))),
              ?_, ?_⟩
            · simp only [SerializeProp, serializePropBody, if_neg h1, if_neg h2, if_neg h3,
                if_pos h4, hval, valTime, if_neg hfits]
            · have hval2 : valParse VARTYPE_SYSLOGTIME (((timeRender t).length : Nat) : Int)
                  (timeRender t ++ ':' :: '\n' :: rest) = .ok (.vtime t) ('\n' :: rest) := by
                rw [valParse, if_neg (by decide), if_neg (by decide), if_pos rfl,
                  objDeserializeSyslogTime_exact t ('\n' :: rest)]
                rfl
              rw [propLine_parse p.name hnm VARTYPE_SYSLOGTIME (timeRender t).length
                (timeRender t) (.vtime t) rest hval2]
              have hpc : p.ptype ≠ PROPTYPE_PSZ := h1
              rw [toVar, if_neg (not_or.mpr ⟨h1, h3⟩), if_neg h2, if_pos h4, hval]
              simp [valTime]
          | unset => rw [hval] at hbody; simp at hbody
          | vstr s => rw [hval] at hbody; simp at hbody
          | vnum n => rw [hval] at hbody; simp at hbody
        · rw [if_neg h4] at hbody
          cases hbody

/-! ## Unfolding facts for the retry and property loops -/

theorem deserializePropsLoop_err {β : Type} (setProp : β → var_t → Except RsRet β) (pObj : β)
    (s : List Char) (e : RsRet) (s1 : List Char) (h : objDeserializeProperty s = .err e s1) :
    deserializePropsLoop setProp pObj s =
      if e = .NO_PROPLINE then .ok pObj s1 else .err e s1 := by
  rw [deserializePropsLoop.eq_def]
  split
  · rename_i pVar s2 h1
    rw [h] at h1
    cases h1
  · rename_i e2 s2 h1
    rw [h] at h1
    injection h1 with he hs
    subst he
    subst hs
    rfl

theorem deserializePropsLoop_ok {β : Type} (setProp : β → var_t → Except RsRet β) (pObj : β)
    (s : List Char) (v : var_t) (s1 : List Char) (h : objDeserializeProperty s = .ok v s1) :
    deserializePropsLoop setProp pObj s =
      match setProp pObj v with
      | .ok pObj2 => deserializePropsLoop setProp pObj2 s1
      | .error e => .err e s1 := by
  rw [deserializePropsLoop.eq_def]
  split
  · rename_i pVar s2 h1
    rw [h] at h1
    injection h1 with hv hs
    subst hv
    subst hs
    rfl
  · rename_i e2 s2 h1
    rw [h] at h1
    cases h1

theorem headerRetryLoop_okStep (c0 c1 c2 : Char) (s : List Char) (r : Nat × Int)
    (s1 : List Char) (h : objDeserializeHeader c0 c1 c2 s = .ok r s1) :
    headerRetryLoop c0 c1 c2 s = .ok r s1 := by
  rw [headerRetryLoop.eq_def]
  split
  · rename_i r2 s2 h1
    rw [h] at h1
    injection h1 with hr hs
    subst hr
    subst hs
    rfl
  · rename_i e2 s2 h1
    rw [h] at h1
    cases h1

theorem headerRetryLoop_errStep (c0 c1 c2 : Char) (s : List Char) (e : RsRet)
    (s1 : List Char) (h : objDeserializeHeader c0 c1 c2 s = .err e s1) :
    headerRetryLoop c0 c1 c2 s =
      match objDeserializeTryRecover s1 with
      | .ok _ s2 => headerRetryLoop c0 c1 c2 s2
      | .err e2 s2 => .err e2 s2 := by
  rw [headerRetryLoop.eq_def]
  split
  · rename_i r2 s2 h1
    rw [h] at h1
    cases h1
  · rename_i e2 s2 h1
    rw [h] at h1
    injection h1 with he hs
    subst hs
    split
    · rename_i a s2 h2
      rw [h2]
    · rename_i e3 s2 h2
      rw [h2]

/-- The instance model used for witnesses: an object is just the list of the
var_t properties dispatched into it, and its SETPROPERTY capability
appends. -/
def listSetProp : List var_t → var_t → Except RsRet (List var_t) :=
  fun pObj pVar => Except.ok (pObj ++ [pVar])

/-- A property line starting with anything but the cookie reports
NO_PROPLINE and pushes the character back. -/
theorem objDeserializeProperty_noprop (c : Char) (hc : c ≠ COOKIE_PROPLINE) (r : List Char) :
    objDeserializeProperty (c :: r) = .err .NO_PROPLINE (c :: r) := by
  simp [objDeserializeProperty, hc]

/-- Reading back a serialized run of valid properties collects exactly their
var_t images, stopping at the first non-cookie character. -/
theorem deserializePropsLoop_serialized (ps : List PropIn)
    (hv : ∀ p ∈ ps, validProp p = true) :
    ∀ (acc : List var_t) (c : Char), c ≠ COOKIE_PROPLINE → ∀ (r : List Char),
    ∃ body, serializeProps ps = Except.ok body ∧
      deserializePropsLoop listSetProp acc (body ++ c :: r) =
        .ok (acc ++ ps.map toVar) (c :: r) := by
  induction ps with
  | nil =>
    intro acc c hc r
    refine ⟨[], rfl, ?_⟩
    rw [List.nil_append,
      deserializePropsLoop_err listSetProp acc (c :: r) .NO_PROPLINE (c :: r)
        (objDeserializeProperty_noprop c hc r)]
    simp
  | cons p ps ih =>
    intro acc c hc r
    have hp : validProp p = true := hv p (List.mem_cons_self p ps)
    have hps : ∀ q ∈ ps, validProp q = true := fun q hq => hv q (List.mem_cons_of_mem p hq)
    obtain ⟨body, hbody, hloop⟩ := ih hps (acc ++ [toVar p]) c hc r
    obtain ⟨line, hline, hparse⟩ := serializeProp_roundtrip p hp (body ++ c :: r)
    refine ⟨line ++ body, ?_, ?_⟩
    · rw [serializeProps, hline, hbody]
    · rw [List.append_assoc,
        deserializePropsLoop_ok listSetProp acc _ (toVar p) (body ++ c :: r) hparse]
      simp only [listSetProp]
      rw [hloop]
      simp

/-- objDeserializeProperties over a serialized property run followed by the
record trailer: collects the var_t images and consumes the trailer. -/
theorem objDeserializeProperties_serialized (ps : List PropIn)
    (hv : ∀ p ∈ ps, validProp p = true) (pObj : List var_t) (rest : List Char) :
    ∃ body, serializeProps ps = Except.ok body ∧
      objDeserializeProperties listSetProp pObj (body ++ (endSerializeBytes ++ rest)) =
        .ok (pObj ++ ps.map toVar) rest := by
  obtain ⟨body, hbody, hloop⟩ :=
    deserializePropsLoop_serialized ps hv pObj COOKIE_ENDLINE (by decide)
      ('E' :: 'n' :: 'd' :: '\n' :: COOKIE_BLANKLINE :: '\n' :: rest)
  refine ⟨body, hbody, ?_⟩
  rw [objDeserializeProperties]
  have hshape : body ++ (endSerializeBytes ++ rest) =
      body ++ COOKIE_ENDLINE :: ('E' :: 'n' :: 'd' :: '\n' :: COOKIE_BLANKLINE :: '\n' :: rest) := by
    simp [endSerializeBytes]
  rw [hshape, hloop]
  simp only [pbind]
  have htr : COOKIE_ENDLINE :: 'E' :: 'n' :: 'd' :: '\n' :: COOKIE_BLANKLINE :: '\n' :: rest =
      endSerializeBytes ++ rest := by
    simp [endSerializeBytes]
  rw [htr, objDeserializeTrailer_exact rest]

/-- The registry used to witness deserialization: every class id maps to the
list-of-properties instance model — constructor yields the empty property
list, SETPROPERTY appends, no construction finalizer. -/
def listOps : Nat → ClassOps (List var_t) :=
  fun _ => { construct := Except.ok [], setProperty := listSetProp,
             isConstructionFinalizerImplemented := false,
             constructionFinalizer := Except.ok }

/-- C6: for every instance with a valid property set (string, integer and
composite-timestamp typed properties, including negative integers such as
-42 and zero), serializing the instance's properties and then
deserializing the resulting record with the same expected class id yields
an instance whose property set equals the original (the var_t images of
the serialized properties, in order). -/
theorem serialize_then_deserialize_roundtrip (oID : Nat) (oVers : Int) (cname : List Char)
    (props : List PropIn) (rest : List Char)
    (hid1 : 1 ≤ oID) (hid2 : oID < OBJ_NUM_IDS) (hnm : '\n' ∉ cname)
    (hv : ∀ p ∈ props, validProp p = true) :
    ∃ record, serializeRecord oID oVers cname props = Except.ok record ∧
      Deserialize listOps none oID (record ++ rest) = .ok (props.map toVar) rest := by
  obtain ⟨body, hbody, hprops⟩ := objDeserializeProperties_serialized props hv [] rest
  refine ⟨objSerializeHeader ['O', 'b', 'j'] oID oVers cname ++ (body ++ endSerializeBytes),
    ?_, ?_⟩
  · rw [serializeRecord, hbody]
  · rw [Deserialize, if_pos ⟨hid1, hid2⟩]
    have hh : (objSerializeHeader ['O', 'b', 'j'] oID oVers cname ++
        (body ++ endSerializeBytes)) ++ rest =
        objSerializeHeader ['O', 'b', 'j'] oID oVers cname ++ (body ++ (endSerializeBytes ++ rest)) := by
      simp [List.append_assoc]
    rw [hh, objDeserializeHeader_exact 'O' 'b' 'j' oID oVers cname _ hid1 hid2 hnm]
    simp only [listOps, ne_eq, not_true_eq_false, if_false, ite_false]
    rw [hprops]
    simp [pbind]

/-! ## Claim theorems -/

/-- C7: when Deserialize is called with an expected class id E (within the
entry assertion's range) and the stream's first well-formed header
declares class id D with D ≠ E, the call fails with RS_RET_INVALID_OID.
The registry `reg` — including every class's constructor capability — is
universally quantified and the result does not depend on it, so no
constructor is invoked and no instance is constructed. -/
theorem deserialize_class_id_mismatch {β : Type} (reg : Nat → ClassOps β)
    (fFixup : Option (β → Except RsRet β)) (objTypeExpected : Nat) (s s1 : List Char)
    (oID : Nat) (oVers : Int)
    (hexp1 : 0 < objTypeExpected) (hexp2 : objTypeExpected < OBJ_NUM_IDS)
    (hhdr : objDeserializeHeader 'O' 'b' 'j' s = .ok (oID, oVers) s1)
    (hne : oID ≠ objTypeExpected) :
    Deserialize reg fFixup objTypeExpected s = .err .INVALID_OID s1 := by
  rw [Deserialize, if_pos ⟨hexp1, hexp2⟩, hhdr]
  simp [hne]

/-- C7 witness: a stream whose header declares class id 7, deserialized
expecting class id 5, fails with RS_RET_INVALID_OID. -/
theorem deserialize_class_id_mismatch_witness :
    Deserialize listOps none 5
      (objSerializeHeader ['O', 'b', 'j'] 7 1 ['x']) = .err .INVALID_OID [] :=
  deserialize_class_id_mismatch listOps none 5 _ [] 7 1 (by decide) (by decide)
    (by decide) (by decide)

/-- C9: the serializer emits a property line with declared length 0 for an
empty C-string value (tag `1` is the string wire type, the two `0` fields
are the type's rendering and the length), while the string decoder's
`assert(iLen > 0)` rejects length 0 before reading anything (modelled as
ABORTED); consequently parsing the emitted line back aborts in the
decoder rather than reconstructing the property. -/
theorem empty_string_property_not_roundtrippable (nm s rest : List Char)
    (hnm : ':' ∉ nm) :
    SerializeProp nm PROPTYPE_PSZ (some (.vstr [])) =
      Except.ok (COOKIE_PROPLINE :: (nm ++ ':' :: '1' :: ':' :: '0' :: ':' :: ':' :: ['\n'])) ∧
    objDeserializeStr 0 s = .err .ABORTED s ∧
    objDeserializeProperty
      ((COOKIE_PROPLINE :: (nm ++ ':' :: '1' :: ':' :: '0' :: ':' :: ':' :: ['\n'])) ++ rest) =
      .err .ABORTED (':' :: '\n' :: rest) := by
  refine ⟨rfl, rfl, ?_⟩
  simp only [List.cons_append, List.append_assoc]
  rw [objDeserializeProperty, if_pos rfl, propLineBody]
  rw [readNameLoop_exact nm hnm [] _]
  simp only [pbind, List.nil_append]
  have h1 : ('1' :: ':' :: '0' :: ':' :: ':' :: '\n' :: rest) =
      intToDec 1 ++ ':' :: ('0' :: ':' :: ':' :: '\n' :: rest) := rfl
  rw [h1, objDeserializeNumber_intToDec]
  simp only [pbind]
  have h2 : ('0' :: ':' :: ':' :: '\n' :: rest) =
      intToDec 0 ++ ':' :: (':' :: '\n' :: rest) := rfl
  rw [h2, objDeserializeNumber_intToDec]
  simp only [pbind]
  rw [valParse, if_pos (show (1 : Int) = VARTYPE_STR from rfl)]
  rfl

/-- The property-type tags the switch in SerializeProp recognizes. -/
def recognizedPropType (t : Nat) : Bool :=
  decide (t = PROPTYPE_PSZ ∨ t = PROPTYPE_SHORT ∨ t = PROPTYPE_INT ∨ t = PROPTYPE_LONG ∨
    t = PROPTYPE_INT64 ∨ t = PROPTYPE_CSTR ∨ t = PROPTYPE_SYSLOGTIME)

/-- C10: writeProperty with a present value whose type tag is not one of the
recognized property types does not fail: it emits a property line whose
value-type field is the "none" tag `0`, whose declared length is `0` and
whose value bytes are empty, and returns success. -/
theorem serializeProp_unrecognized_tag (nm : List Char) (t : Nat) (v : VarVal)
    (h : recognizedPropType t = false) :
    SerializeProp nm t (some v) =
      Except.ok (COOKIE_PROPLINE :: (nm ++ ':' :: '0' :: ':' :: '0' :: ':' :: ':' :: ['\n'])) := by
  rw [recognizedPropType, decide_eq_false_iff_not, not_or, not_or, not_or, not_or, not_or,
    not_or] at h
  obtain ⟨h1, h2, h3, h4, h5, h6, h7⟩ := h
  have hbody : serializePropBody t v = Except.ok ([], VARTYPE_NONE) := by
    rw [serializePropBody, if_neg h1, if_neg (by tauto), if_neg h6, if_neg h7]
  simp only [SerializeProp]
  rw [hbody]
  rfl

/-- C10 witness: the unrecognized tag 99 with a present numeric value emits
the none-tagged, zero-length property line and succeeds. -/
theorem serializeProp_unrecognized_tag_witness :
    SerializeProp ['a'] 99 (some (.vnum 5)) =
      Except.ok (COOKIE_PROPLINE :: (['a'] ++ ':' :: '0' :: ':' :: '0' :: ':' :: ':' :: ['\n'])) :=
  serializeProp_unrecognized_tag ['a'] 99 (.vnum 5) (by decide)

/-- A garbage byte, then a record boundary (newline + start cookie) opening
a well-formed header for class 5 — the situation the recovery scanner
exists for. -/
def recoverableStream : List Char :=
  '#' :: '\n' :: objSerializeHeader ['O', 'b', 'j'] 5 1 ['x']

/-- C1 (evidence for the code bug): on a stream whose header parsing fails
but which contains a perfectly recoverable record right after the next
record boundary, Deserialize terminates the process through the abort()
call at obj.c line 725 instead of recovering, while the retry loop that
lines 721-728 describe in their comment (and that the property-bag
deserializers actually run) would have resynchronized and parsed the
header of class 5 successfully. -/
theorem deserialize_aborts_instead_of_recovering :
    Deserialize listOps none 5 recoverableStream =
      .err .ABORTED ('\n' :: objSerializeHeader ['O', 'b', 'j'] 5 1 ['x']) ∧
    headerRetryLoop 'O' 'b' 'j' recoverableStream = .ok (5, 1) [] := by
  constructor
  · decide
  · rw [headerRetryLoop_errStep 'O' 'b' 'j' recoverableStream .INVALID_HEADER
      ('\n' :: objSerializeHeader ['O', 'b', 'j'] 5 1 ['x']) (by decide)]
    have hrec : objDeserializeTryRecover ('\n' :: objSerializeHeader ['O', 'b', 'j'] 5 1 ['x']) =
        .ok () (objSerializeHeader ['O', 'b', 'j'] 5 1 ['x']) := by decide
    rw [hrec]
    show headerRetryLoop 'O' 'b' 'j' (objSerializeHeader ['O', 'b', 'j'] 5 1 ['x']) =
      .ok (5, 1) []
    rw [headerRetryLoop_okStep 'O' 'b' 'j' (objSerializeHeader ['O', 'b', 'j'] 5 1 ['x'])
      (5, 1) [] (by decide)]

/-- C4 (evidence for the code bug): on a stream of pure garbage in which a
newline followed by the start cookie never occurs, Deserialize terminates
the process through the abort() at obj.c line 725 instead of failing with
EndOfStream; the same garbage run through the recovery-based retry loop
(as the property-bag deserializers do) exhausts the stream and fails with
RS_RET_EOF exactly as the claim describes. -/
theorem deserialize_exhaustion_aborts :
    Deserialize listOps none 5 ['x', 'y', 'z'] = .err .ABORTED ['y', 'z'] ∧
    objDeserializeObjAsPropBag listSetProp 5 ([] : List var_t) ['x', 'y', 'z'] =
      .err .EOF [] := by
  constructor
  · decide
  · rw [objDeserializeObjAsPropBag]
    rw [headerRetryLoop_errStep 'O' 'b' 'j' ['x', 'y', 'z'] .INVALID_HEADER ['y', 'z']
      (by decide)]
    have hrec : objDeserializeTryRecover ['y', 'z'] = .err .EOF [] := by decide
    rw [hrec]
    rfl

/-- The serialized property-bag record `<OPB:1:5:1:x:\n>End\n.\n` for class
id 5, with no properties. -/
def opbStream : List Char :=
  ['<', 'O', 'P', 'B', ':', '1', ':', '5', ':', '1', ':', 'x', ':', '\n',
   '>', 'E', 'n', 'd', '\n', '.', '\n']

/-- C2 counterexample: the claim says both property-bag entry points parse
the header with expected kind tag "OPB".  On the OPB record above,
DeserializePropBag (which does expect "OPB") succeeds, but
objDeserializeObjAsPropBag fails with EOF: it expects the "Obj" tag,
rejects "OPB" at the second tag character, and its recovery scan then
exhausts the stream — so the two entry points do not both use "OPB". -/
theorem propbag_kind_tag_counterexample :
    DeserializePropBag listSetProp 5 ([] : List var_t) opbStream = .ok [] [] ∧
    objDeserializeObjAsPropBag listSetProp 5 ([] : List var_t) opbStream = .err .EOF [] := by
  constructor
  · rw [DeserializePropBag, headerRetryLoop_okStep 'O' 'P' 'B' opbStream (5, 1)
      ['>', 'E', 'n', 'd', '\n', '.', '\n'] (by decide)]
    simp only [pbind]
    rw [if_neg (by decide), objDeserializeProperties,
      deserializePropsLoop_err listSetProp [] ['>', 'E', 'n', 'd', '\n', '.', '\n']
        .NO_PROPLINE ['>', 'E', 'n', 'd', '\n', '.', '\n'] (by decide),
      if_pos rfl]
    simp only [pbind]
    have htr : objDeserializeTrailer ['>', 'E', 'n', 'd', '\n', '.', '\n'] = .ok () [] := by
      decide
    rw [htr]
  · rw [objDeserializeObjAsPropBag, headerRetryLoop_errStep 'O' 'b' 'j' opbStream
      .INVALID_HEADER_RECTYPE
      ['B', ':', '1', ':', '5', ':', '1', ':', 'x', ':', '\n', '>', 'E', 'n', 'd', '\n', '.', '\n']
      (by decide)]
    have hrec : objDeserializeTryRecover
        ['B', ':', '1', ':', '5', ':', '1', ':', 'x', ':', '\n', '>', 'E', 'n', 'd', '\n', '.', '\n'] =
        .err .EOF [] := by decide
    rw [hrec]
    rfl

/-- C2 amended: both property-bag deserialization entry points run the same
Header+recovery retry loop, class-id check against the instance's own id,
property loop and trailer check, with no construction, fixup or finalizer
step — but objDeserializeObjAsPropBag parses the header with expected
kind tag "Obj" while DeserializePropBag uses "OPB". -/
theorem propbag_entry_points_refine {β : Type} (setProp : β → var_t → Except RsRet β)
    (pObjID : Nat) (pObj : β) (s : List Char) :
    objDeserializeObjAsPropBag setProp pObjID pObj s =
      deserializePropBagSpec 'O' 'b' 'j' setProp pObjID pObj s ∧
    DeserializePropBag setProp pObjID pObj s =
      deserializePropBagSpec 'O' 'P' 'B' setProp pObjID pObj s :=
  ⟨rfl, rfl⟩

/-- A sample class descriptor: class id 1, constructor handler 10,
destructor handler 11. -/
def dInfo : objInfo_t := InfoConstruct 1 ['d'] 1 10 11

/-- C3 (evidence for the code bug): RegisterObj's range check uses
`oID > OBJ_NUM_IDS` where the array's valid indices end at
OBJ_NUM_IDS - 1, so registering at class id OBJ_NUM_IDS — outside the
spec's [1, MAX_CLASSES) — is accepted with RS_RET_OK and the descriptor
is stored one slot past the end of arrObjInfo. -/
theorem registerObj_accepts_OBJ_NUM_IDS :
    ∃ arr2, RegisterObj (fun _ => none) OBJ_NUM_IDS dInfo = some (arr2, .OK) ∧
      arr2 OBJ_NUM_IDS = some dInfo ∧ ¬ (OBJ_NUM_IDS < OBJ_NUM_IDS) := by
  refine ⟨fun i => if i = OBJ_NUM_IDS then some dInfo else none, ?_, ?_, ?_⟩
  · rfl
  · rfl
  · decide

/-- C5 counterexample: InfoSetMethod's `assert(objMethod > 0 && ...)` rejects
slot 0, the constructor slot, so a guard does prevent overwriting it
(the call aborts instead of overwriting). -/
theorem infoSetMethod_rejects_slot0 : InfoSetMethod dInfo 0 7 = none := rfl

/-- C5 amended: setMethod overwrites the given slot for every enumerated
operation index except 0 — the assertion admits exactly 0 < slot <
OBJ_NUM_METHODS, leaving all other slots untouched; in particular nothing
but caller discipline protects the destructor slot 1, while the
constructor slot 0 is protected by the assertion. -/
theorem infoSetMethod_overwrites (pThis : objInfo_t) (objMethod pHandler : Nat)
    (h1 : 0 < objMethod) (h2 : objMethod < OBJ_NUM_METHODS) :
    ∃ pNew, InfoSetMethod pThis objMethod pHandler = some (pNew, .OK) ∧
      pNew.objMethods objMethod = .handler pHandler ∧
      ∀ k, k ≠ objMethod → pNew.objMethods k = pThis.objMethods k := by
  refine ⟨{ pThis with objMethods := fun m =>
      if m = objMethod then .handler pHandler else pThis.objMethods m }, ?_, ?_, ?_⟩
  · rw [InfoSetMethod, if_pos ⟨h1, h2⟩]
  · simp
  · intro k hk
    simp [hk]

/-- C5 witness: the destructor slot 1 of a freshly built descriptor is
overwritten by handler 7 with no guard in the way. -/
theorem infoSetMethod_overwrites_witness :
    (0 < 1 ∧ 1 < OBJ_NUM_METHODS) ∧
    ∃ pNew, InfoSetMethod dInfo 1 7 = some (pNew, .OK) ∧
      pNew.objMethods 1 = .handler 7 ∧
      ∀ k, k ≠ 1 → pNew.objMethods k = dInfo.objMethods k :=
  ⟨⟨by decide, by decide⟩, infoSetMethod_overwrites dInfo 1 7 (by decide) (by decide)⟩

theorem applySetMethods_preserves_dummy (sets : List (Nat × Nat)) :
    ∀ (pThis pInfo2 : objInfo_t), applySetMethods pThis sets = some pInfo2 →
    ∀ m, (∀ mh ∈ sets, mh.1 ≠ m) → pThis.objMethods m = .dummy →
    pInfo2.objMethods m = .dummy := by
  induction sets with
  | nil =>
    intro pThis p2 h m _ hd
    rw [applySetMethods] at h
    injection h with h
    subst h
    exact hd
  | cons mh sets ih =>
    intro pThis p2 h m hnot hd
    rw [applySetMethods] at h
    cases hset : InfoSetMethod pThis mh.1 mh.2 with
    | none => rw [hset] at h; cases h
    | some r =>
      rw [hset] at h
      refine ih r.1 p2 h m (fun q hq => hnot q (List.mem_cons_of_mem mh hq)) ?_
      rw [InfoSetMethod] at hset
      by_cases hc : 0 < mh.1 ∧ mh.1 < OBJ_NUM_METHODS
      · rw [if_pos hc] at hset
        injection hset with hset
        subst hset
        have hne : m ≠ mh.1 := (hnot mh (List.mem_cons_self mh sets)).symm
        simp only []
        rw [if_neg hne]
        exact hd
      · rw [if_neg hc] at hset
        cases hset

/-- C8: in every descriptor built by InfoConstruct and then modified by any
sequence of (assertion-passing) InfoSetMethod calls that never target
slot m, every slot m with 2 ≤ m < OBJ_NUM_METHODS still holds the shared
sentinel; invoking it returns RS_RET_NOT_IMPLEMENTED whatever the
installed handlers do, objInfoIsImplemented reports false for it, and a
successful registration stores the descriptor unchanged. -/
theorem unset_slots_hold_sentinel (objID : Nat) (pszName : List Char) (iObjVers : Int)
    (pConstruct pDestruct : Nat) (sets : List (Nat × Nat)) (pInfo2 : objInfo_t)
    (happ : applySetMethods (InfoConstruct objID pszName iObjVers pConstruct pDestruct) sets =
      some pInfo2)
    (m : Nat) (hm2 : 2 ≤ m) (hmN : m < OBJ_NUM_METHODS)
    (hnot : ∀ mh ∈ sets, mh.1 ≠ m) :
    pInfo2.objMethods m = .dummy ∧
    (∀ impl : Nat → RsRet, invokeSlot impl (pInfo2.objMethods m) = .NOT_IMPLEMENTED) ∧
    objInfoIsImplemented pInfo2 m = false ∧
    (∀ (arr arr2 : Nat → Option objInfo_t) (oID2 : Nat) (r : RsRet),
      RegisterObj arr oID2 pInfo2 = some (arr2, r) → r = .OK → arr2 oID2 = some pInfo2) := by
  have hinit : (InfoConstruct objID pszName iObjVers pConstruct pDestruct).objMethods m =
      .dummy := by
    simp only [InfoConstruct]
    rw [if_neg (by omega), if_neg (by omega)]
  have hdum := applySetMethods_preserves_dummy sets _ pInfo2 happ m hnot hinit
  refine ⟨hdum, ?_, ?_, ?_⟩
  · intro impl
    rw [hdum]
    rfl
  · rw [objInfoIsImplemented, hdum]
  · intro arr arr2 oID2 r hreg hok
    rw [RegisterObj] at hreg
    cases harr : arr oID2 with
    | some x => rw [harr] at hreg; cases hreg
    | none =>
      rw [harr] at hreg
      by_cases hrange : oID2 < 1 ∨ OBJ_NUM_IDS < oID2
      · rw [if_pos hrange] at hreg
        injection hreg with hpair
        injection hpair with ha hr
        rw [← hr] at hok
        cases hok
      · rw [if_neg hrange] at hreg
        injection hreg with hpair
        injection hpair with ha hr
        rw [← ha]
        simp

/-- The descriptor obtained from dInfo-style construction after installing
handler 99 at slot 3, written out explicitly for the C8 witness. -/
def dInfoSet : objInfo_t :=
  { pszName := [], iObjVers := 1, objID := 1,
    objMethods := fun m =>
      if m = 3 then .handler 99
      else if m = 0 then .handler 10
      else if m = 1 then .handler 11
      else .dummy }

/-- C8 witness: after construction and one InfoSetMethod on slot 3, slot 4 of
the resulting descriptor still holds the sentinel and invoking it under
an environment where every installed handler returns RS_RET_OK still
yields RS_RET_NOT_IMPLEMENTED. -/
theorem unset_slots_hold_sentinel_witness :
    applySetMethods (InfoConstruct 1 [] 1 10 11) [(3, 99)] = some dInfoSet ∧
    (dInfoSet.objMethods 4 = .dummy ∧
    (∀ impl : Nat → RsRet, invokeSlot impl (dInfoSet.objMethods 4) = .NOT_IMPLEMENTED) ∧
    objInfoIsImplemented dInfoSet 4 = false ∧
    (∀ (arr arr2 : Nat → Option objInfo_t) (oID2 : Nat) (r : RsRet),
      RegisterObj arr oID2 dInfoSet = some (arr2, r) → r = .OK → arr2 oID2 = some dInfoSet)) :=
  ⟨rfl, unset_slots_hold_sentinel 1 [] 1 10 11 [(3, 99)] dInfoSet rfl 4 (by decide) (by decide)
    (by decide)⟩

/-- A sample timestamp with every field populated. -/
def demoTime : SyslogTime := ⟨1, 2008, 2, 29, 12, 30, 45, 123, 3, '+', 1, 30⟩

/-- A sample valid property set: a C string, the negative integer -42, the
integer 0, a composite timestamp and a counted string. -/
def demoProps : List PropIn :=
  [⟨['m', 's', 'g'], PROPTYPE_PSZ, .vstr ['a', 'b', 'c']⟩,
   ⟨['n', 'e', 'g'], PROPTYPE_INT64, .vnum (-42)⟩,
   ⟨['z', 'e', 'r', 'o'], PROPTYPE_INT, .vnum 0⟩,
   ⟨['t', 's'], PROPTYPE_SYSLOGTIME, .vtime demoTime⟩,
   ⟨['c', 's'], PROPTYPE_CSTR, .vstr ['x']⟩]

/-- C6 witness: the sample property set — including the negative integer -42
and the integer 0 — serialized for class id 5 and deserialized expecting
class id 5 yields exactly the original property set's var_t images. -/
theorem serialize_then_deserialize_roundtrip_witness :
    (1 ≤ 5 ∧ 5 < OBJ_NUM_IDS ∧ '\n' ∉ (['q'] : List Char) ∧
      ∀ p ∈ demoProps, validProp p = true) ∧
    ∃ record, serializeRecord 5 1 ['q'] demoProps = Except.ok record ∧
      Deserialize listOps none 5 (record ++ []) = .ok (demoProps.map toVar) [] :=
  ⟨⟨by decide, by decide, by decide, by decide⟩,
   serialize_then_deserialize_roundtrip 5 1 ['q'] demoProps [] (by decide) (by decide)
     (by decide) (by decide)⟩

/-- C9 witness: name "e", arbitrary decoder stream "a" — the serializer
emits the zero-length string line and the string decoder aborts on
length 0, so the line does not parse back. -/
theorem empty_string_property_not_roundtrippable_witness :
    (':' ∉ (['e'] : List Char)) ∧
    (SerializeProp ['e'] PROPTYPE_PSZ (some (.vstr [])) =
      Except.ok (COOKIE_PROPLINE :: (['e'] ++ ':' :: '1' :: ':' :: '0' :: ':' :: ':' :: ['\n'])) ∧
    objDeserializeStr 0 ['a'] = .err .ABORTED ['a'] ∧
    objDeserializeProperty
      ((COOKIE_PROPLINE :: (['e'] ++ ':' :: '1' :: ':' :: '0' :: ':' :: ':' :: ['\n'])) ++ []) =
      .err .ABORTED (':' :: '\n' :: [])) :=
  ⟨by decide, empty_string_property_not_roundtrippable ['e'] ['a'] [] (by decide)⟩
